import Mathlib

/-!
Verification of the candidate retrieval, normalization, ranking, validation and
scoring logic of the resume-screening MCP server.

The Python sources are shallowly embedded:
  - Python strings are Lean `String` (a structure holding a `List Char`);
    the helpers `pyOr`, `pyStrip`, `pySplit`, `pyJoin`, `pyLower`, `pyTitle`
    reproduce the string semantics used by the sources (truthiness of a string
    is non-emptiness; `str.title` upcases a letter that follows a non-letter
    and downcases every other letter, ASCII only, matching the inputs the
    code handles).
  - Python floats (relevance scores, percentages) are modelled as exact
    rationals `Rat`; NaN payloads are outside the model.
  - A Python dict used as node metadata is modelled by `MetaVal.dict` (an
    association list, first binding wins); a metadata attribute holding a
    non-mapping value, on which `.get` raises, is `MetaVal.nonDict`.
  - Fallible code returns `Except`; the `try/except` of
    `_extract_candidate_info` is the total function `extractCandidateInfo`
    wrapping `extractCandidateInfoE`.
  - `list.sort(key=lambda x: x.score, reverse=True)` is a stable sort,
    descending by score; it is modelled by insertion sort with the total
    preorder `scoreGE`, which computes exactly the unique stable
    descending-by-score permutation.
-/

namespace ResumeScreening

/-- The whitespace set of Python `str.strip` and of the regex class backslash-s
(ASCII part). -/
def pyWhitespace (c : Char) : Bool :=
  c = ' ' || c = '\t' || c = '\n' || c = '\r' || c = '\x0b' || c = '\x0c'

/-- Python `a or b` on strings: the first operand unless it is falsy (empty). -/
def pyOr (a b : String) : String :=
  if a = "" then b else a

/-- Python `str.strip()` (no argument): drop leading and trailing whitespace. -/
def pyStrip (s : String) : String :=
  ⟨((s.data.dropWhile pyWhitespace).reverse.dropWhile pyWhitespace).reverse⟩

/-- Python `str.split(sep)` for a one-character separator. -/
def pySplitAux (sep : Char) : List Char → List Char → List String
  | [], acc => [⟨acc.reverse⟩]
  | c :: cs, acc =>
    if c = sep then ⟨acc.reverse⟩ :: pySplitAux sep cs []
    else pySplitAux sep cs (c :: acc)

/-- Python `s.split(sep)`. -/
def pySplit (sep : Char) (s : String) : List String :=
  pySplitAux sep s.data []

/-- Python `sep.join(parts)`. -/
def pyJoin (sep : String) : List String → String
  | [] => ""
  | [x] => x
  | x :: y :: rest => x ++ sep ++ pyJoin sep (y :: rest)

/-- Python `str.lower()` (ASCII letters). -/
def pyLower (s : String) : String :=
  ⟨s.data.map Char.toLower⟩

/-- Scanner behind `pyTitle`; the flag records whether the previous character
was a letter. -/
def pyTitleAux : Bool → List Char → List Char
  | _, [] => []
  | prevAlpha, c :: cs =>
    if c.isAlpha then
      (if prevAlpha then c.toLower else c.toUpper) :: pyTitleAux true cs
    else
      c :: pyTitleAux false cs

/-- Python `str.title()` (ASCII letters): a letter that follows a non-letter is
upcased, every other letter is downcased. -/
def pyTitle (s : String) : String :=
  ⟨pyTitleAux false s.data⟩

/-- A metadata attribute value: either a mapping (Python dict, modelled as an
association list, first binding wins) or a non-mapping value on which `.get`
raises `AttributeError`. -/
inductive MetaVal where
  | dict (entries : List (String × String))
  | nonDict (val : String)
deriving DecidableEq

/-- Python truthiness of a metadata value: an empty dict is falsy. A
non-mapping value is modelled as truthy. -/
def MetaVal.truthy : MetaVal → Bool
  | .dict [] => false
  | .dict (_ :: _) => true
  | .nonDict _ => true

/-- Python `a or b` on metadata values. -/
def pyOrMeta (a b : MetaVal) : MetaVal :=
  if a.truthy then a else b

/-- Python `entries.get(key, defaultEmpty)` on a dict. -/
def lookupMeta (entries : List (String × String)) (key : String) : String :=
  ((entries.find? (fun p => p.1 == key)).map Prod.snd).getD ""

/-- `CandidateMatch` (llamacloud_service.py lines 26-54): the fields of the
data structure for candidate match results. -/
structure CandidateMatch where
  node_id : String
  score : Rat
  content : String
  metadata : MetaVal
  candidate_name : String
  file_name : String
deriving DecidableEq

/-- The `CandidateMatch.__init__` logic (lines 29-43): `candidate_name` falls
back to the sentinel on `None` or empty, `file_name` falls back to empty.
`none` models passing `None` (or omitting the optional argument). -/
def mkCandidateMatch (node_id : String) (score : Rat) (content : String)
    (metadata : MetaVal) (candidate_name : Option String)
    (file_name : Option String) : CandidateMatch :=
  { node_id := node_id
    score := score
    content := content
    metadata := metadata
    candidate_name := pyOr (candidate_name.getD "") "Unknown Candidate"
    file_name := pyOr (file_name.getD "") "" }

/-- Field values of the serialized candidate dictionary. -/
inductive FieldVal where
  | str (s : String)
  | num (q : Rat)
  | meta (m : MetaVal)
deriving DecidableEq

/-- `CandidateMatch.to_dict` (lines 45-54). -/
def CandidateMatch.toDict (c : CandidateMatch) : List (String × FieldVal) :=
  [("node_id", .str c.node_id),
   ("score", .num c.score),
   ("content", .str c.content),
   ("metadata", .meta c.metadata),
   ("candidate_name", .str c.candidate_name),
   ("file_name", .str c.file_name)]

/-- The inner node of a wrapped (scored) raw search record. An attribute that
is absent (or `None`) is `none`. -/
structure InnerNode where
  id_ : Option String
  text : Option String
  content : Option String
  metadata : Option MetaVal
  extra_info : Option MetaVal
deriving DecidableEq

/-- A raw search-result record as probed by `_extract_candidate_info`: flat, or
wrapped when the `node` attribute is present. -/
structure RawNode where
  id_ : Option String
  node_id : Option String
  score : Option Rat
  text : Option String
  content : Option String
  metadata : Option MetaVal
  extra_info : Option MetaVal
  node : Option InnerNode
deriving DecidableEq

/-- Name-part of a file name (lines 176-177): strip the directory path, keep
the part before the first dot, replace underscores and hyphens with spaces. -/
def namePartOf (file_name : String) : String :=
  let base : List Char := (file_name.data.reverse.takeWhile (fun c => c ≠ '/')).reverse
  ⟨(base.takeWhile (fun c => c ≠ '.')).map
    (fun c => if c = '_' then ' ' else if c = '-' then ' ' else c)⟩

/-- Candidate-name derivation from the file name (lines 173-179): the
title-cased name part is accepted unless it is empty or starts with
"resume" case-insensitively. -/
def nameFromFileName (file_name : String) : Option String :=
  let name_part := namePartOf file_name
  if name_part ≠ "" ∧ ¬ "resume".data.isPrefixOf (pyLower name_part).data then
    some (pyTitle name_part)
  else
    none

/-- Greedy match of the regex piece `[A-Z][a-z]+` at the head of the input;
for this piece greedy matching is deterministic (a shorter lowercase run is
followed by a lowercase letter, which no continuation of the patterns in use
can consume). Returns the matched characters and the rest. -/
def matchWord : List Char → Option (List Char × List Char)
  | [] => none
  | c :: cs =>
    if c.isUpper then
      let low := cs.takeWhile Char.isLower
      if low.isEmpty then none
      else some (c :: low, cs.dropWhile Char.isLower)
    else none

/-- Greedy match of `[A-Z][a-z]+ [A-Z][a-z]+` at the head of the input. -/
def matchTwoWords (l : List Char) : Option (List Char × List Char) := do
  let (w1, r1) ← matchWord l
  match r1 with
  | ' ' :: r2 =>
    let (w2, r3) ← matchWord r2
    some (w1 ++ ' ' :: w2, r3)
  | _ => none

/-- Match of the second name pattern `Name:? \s* (two words)` anchored at the
head of the input (the optional colon and the greedy whitespace run are
deterministic here). Returns the captured group. -/
def matchNameLabelAt (l : List Char) : Option (List Char) :=
  if l.take 4 = ['N', 'a', 'm', 'e'] then
    let rest := l.drop 4
    let rest1 := match rest with
      | ':' :: r => r
      | _ => rest
    (matchTwoWords (rest1.dropWhile pyWhitespace)).map Prod.fst
  else none

/-- Match of the third name pattern `(two words) \s* newline` anchored at the
head of the input: the pattern matches exactly when the maximal whitespace run
after the two words contains a newline. Returns the captured group. -/
def matchTwoWordsNewlineAt (l : List Char) : Option (List Char) := do
  let (w, rest) ← matchTwoWords l
  if (rest.takeWhile pyWhitespace).contains '\n' then some w else none

/-- `re.search` for an unanchored pattern: try the matcher at every position,
leftmost first. -/
def searchPattern (f : List Char → Option (List Char)) : List Char → Option (List Char)
  | [] => f []
  | c :: cs =>
    match f (c :: cs) with
    | some r => some r
    | none => searchPattern f cs

/-- Content-based name inference (lines 182-195): the three regex heuristics
tried in order over the first 200 characters of the content. The first
pattern is anchored at the start of the text. -/
def inferNameFromContent (content : String) : Option String :=
  let cs := content.data.take 200
  match (matchTwoWords cs).map Prod.fst with
  | some w => some ⟨w⟩
  | none =>
    match searchPattern matchNameLabelAt cs with
    | some w => some ⟨w⟩
    | none => (searchPattern matchTwoWordsNewlineAt cs).map (fun w => ⟨w⟩)

/-- Candidate-name determination (lines 169-195): start from the sentinel, try
the file name, and fall back to content inference exactly when the name is
still the sentinel and the content is non-empty. -/
def deriveCandidateName (file_name content : String) : String :=
  let fromFile := if file_name ≠ "" then nameFromFileName file_name else none
  let n0 := fromFile.getD "Unknown Candidate"
  if n0 = "Unknown Candidate" ∧ content ≠ "" then
    (inferNameFromContent content).getD n0
  else n0

/-- The file name read from metadata (line 170): keys `file_name`, `filename`,
`file_path` tried in order, first truthy wins; `none` models the
`AttributeError` raised by `.get` on a non-mapping value. -/
def fileNameFrom : MetaVal → Option String
  | .dict es =>
    some (pyOr (pyOr (lookupMeta es "file_name") (lookupMeta es "filename"))
      (lookupMeta es "file_path"))
  | .nonDict _ => none

/-- The body of the `try` block of `_extract_candidate_info` (lines 147-204):
identifier, score, content and metadata extraction over the flat or wrapped
record shape, then name derivation. The single modelled failure is `.get` on a
non-mapping metadata value. -/
def extractCandidateInfoE (node : RawNode) : Except String CandidateMatch :=
  let node_id0 := pyOr (node.id_.getD "") (node.node_id.getD "")
  let node_id :=
    match node.node with
    | some inner => pyOr node_id0 (inner.id_.getD "")
    | none => node_id0
  let content :=
    match node.node with
    | some inner => pyOr (inner.text.getD "") (inner.content.getD "")
    | none => pyOr (node.text.getD "") (node.content.getD "")
  let metadata :=
    match node.node with
    | some inner => pyOrMeta (inner.metadata.getD (.dict [])) (inner.extra_info.getD (.dict []))
    | none => pyOrMeta (node.metadata.getD (.dict [])) (node.extra_info.getD (.dict []))
  match fileNameFrom metadata with
  | none => .error "AttributeError: metadata value does not support get"
  | some file_name =>
    .ok (mkCandidateMatch node_id (node.score.getD 0) content metadata
      (some (deriveCandidateName file_name content)) (some file_name))

/-- `_extract_candidate_info` (lines 145-214): the `except` handler returns a
basic match built from the directly available attributes, with name and file
name left at their defaults. -/
def extractCandidateInfo (node : RawNode) : CandidateMatch :=
  match extractCandidateInfoE node with
  | .ok c => c
  | .error _ =>
    mkCandidateMatch (node.id_.getD "unknown") (node.score.getD 0)
      (match node.text with
       | some t => t
       | none => node.content.getD "")
      (node.metadata.getD (.dict [])) none none

/-- A flat raw record carrying an identifier, a score, a text payload and a
metadata dict, as returned by the index in the non-wrapped shape. -/
def flatNode (id : String) (score : Rat) (content : String)
    (meta : List (String × String)) : RawNode :=
  { id_ := some id
    node_id := none
    score := some score
    text := some content
    content := none
    metadata := some (.dict meta)
    extra_info := none
    node := none }

/-- The deduplication loop of `retrieve_candidates` (lines 257-271), identical
in `retrieve_candidates_by_qualifications` and `search_by_skills`, generalized
over the set of already-seen file names. -/
def dedupeSeen (seen : List String) : List CandidateMatch → List CandidateMatch
  | [] => []
  | c :: rest =>
    if c.file_name ≠ "" then
      if c.file_name ∈ seen then dedupeSeen seen rest
      else c :: dedupeSeen (c.file_name :: seen) rest
    else c :: dedupeSeen seen rest

/-- The deduplication step as run by the retrieval methods (seen set starts
empty). -/
def dedupeCandidates (l : List CandidateMatch) : List CandidateMatch :=
  dedupeSeen [] l

/-- Specification-side formulation of deduplication: the first occurrence of
each distinct non-empty file name is kept and every later occurrence is
dropped; records with an empty file name are all kept. -/
def keepFirstOccurrences : List CandidateMatch → List CandidateMatch
  | [] => []
  | c :: rest =>
    if c.file_name = "" then c :: keepFirstOccurrences rest
    else c :: keepFirstOccurrences (rest.filter (fun d => decide (d.file_name ≠ c.file_name)))
termination_by l => l.length
decreasing_by
  · simp only [List.length_cons]; omega
  · simp only [List.length_cons]
    exact Nat.lt_succ_of_le (List.length_filter_le _ _)

/-- The comparison used by `candidates.sort(key=lambda x: x.score,
reverse=True)`: descending by score. -/
def scoreGE (a b : CandidateMatch) : Prop :=
  b.score ≤ a.score

instance : DecidableRel scoreGE :=
  fun a b => inferInstanceAs (Decidable (b.score ≤ a.score))

instance : IsTotal CandidateMatch scoreGE :=
  ⟨fun a b => le_total b.score a.score⟩

instance : IsTrans CandidateMatch scoreGE :=
  ⟨fun _ _ _ h1 h2 => le_trans h2 h1⟩

/-- `candidates.sort(key=lambda x: x.score, reverse=True)` (line 279): the
stable descending sort by score, realized by insertion sort over `scoreGE`
(any stable sort over the same total preorder computes the same list). -/
def sortByScoreDesc (l : List CandidateMatch) : List CandidateMatch :=
  l.insertionSort scoreGE

/-- The deduplicate-and-rank step applied to the normalized records of one
retrieval call (lines 257-282). -/
def processCandidates (l : List CandidateMatch) : List CandidateMatch :=
  sortByScoreDesc (dedupeCandidates l)

/-- `JobDescriptionData` (models.py lines 9-44). -/
structure JobDescriptionData where
  title : String
  company : String
  location : String
  required_qualifications : List String
  preferred_qualifications : List String
  description : String
  experience_level : String
  employment_type : String
deriving DecidableEq

/-- `_build_search_query` (llamacloud_service.py lines 106-124): space-joined
clauses, each omitted when its source field is falsy. -/
def buildSearchQuery (jd : JobDescriptionData) : String :=
  pyJoin " " (
    (if jd.title ≠ "" then ["Job Title: " ++ jd.title] else []) ++
    (if jd.required_qualifications ≠ [] then
      ["Required Qualifications: " ++ pyJoin " " jd.required_qualifications] else []) ++
    (if jd.preferred_qualifications ≠ [] then
      ["Preferred Qualifications: " ++ pyJoin " " jd.preferred_qualifications] else []) ++
    (if jd.experience_level ≠ "" then
      ["Experience Level: " ++ jd.experience_level] else []))

/-- The parts list built by `_build_qualifications_query` (lines 126-143). -/
def qualificationsQueryParts (required_qualifications preferred_qualifications : List String) :
    List String :=
  (if required_qualifications ≠ [] then
    ["Required skills and qualifications: " ++ pyJoin ", " required_qualifications] else []) ++
  (if preferred_qualifications ≠ [] then
    ["Preferred skills and experience: " ++ pyJoin ", " preferred_qualifications] else []) ++
  (if required_qualifications ++ preferred_qualifications ≠ [] then
    ["Relevant experience with: " ++
      pyJoin ", " (required_qualifications ++ preferred_qualifications)] else [])

/-- `_build_qualifications_query` (lines 126-143): the space-joined parts. -/
def buildQualificationsQuery (required_qualifications preferred_qualifications : List String) :
    String :=
  pyJoin " " (qualificationsQueryParts required_qualifications preferred_qualifications)

/-- The retriever configuration dictionary passed to `index.as_retriever`. -/
structure RetrieverConfig where
  dense_similarity_top_k : Int
  alpha : Rat
  enable_reranking : Bool
deriving DecidableEq

/-- The retriever configuration built by `retrieve_candidates` (lines 234-238)
and `retrieve_candidates_by_qualifications` (lines 308-312): the caller's
re-ranking flag is passed through, alpha is fixed at 1.0. -/
def retrieveCandidatesConfig (top_k : Int) (enable_reranking : Bool) : RetrieverConfig :=
  { dense_similarity_top_k := top_k, alpha := 1, enable_reranking := enable_reranking }

/-- The retriever configuration built by the service method `search_by_skills`
(lines 375-379): re-ranking hardwired off. -/
def searchBySkillsConfig (top_k : Int) : RetrieverConfig :=
  { dense_similarity_top_k := top_k, alpha := 1, enable_reranking := false }

/-- Outcome of a tool call in the model: an error envelope, or a retrieval
issued against the vector index with the given retriever configuration and
query string. Only `retrieval` contacts an external service. -/
inductive ToolOutcome where
  | error (msg : String)
  | retrieval (config : RetrieverConfig) (query : String)
deriving DecidableEq

/-- The qualification-list parsing shared by the candidate tools:
`[q.strip() for q in s.split(",") if q.strip()]`. -/
def parseQuals (s : String) : List String :=
  ((pySplit ',' s).map pyStrip).filter (fun q => decide (q ≠ ""))

/-- The `JobDescriptionData` built by `search_candidates_by_skills`
(candidate_tools.py lines 131-140). -/
def skillsJobDescription (skills : String) (skills_list : List String) : JobDescriptionData :=
  { title := "Skills-based Search"
    company := "Search Query"
    location := "Any"
    required_qualifications := skills_list
    preferred_qualifications := []
    description := "Looking for candidates with skills: " ++ skills
    experience_level := ""
    employment_type := "" }

/-- `CandidateTools.find_matching_candidates` (candidate_tools.py lines
26-99) up to the point where the service is contacted: service-availability
check, then input validation, then the retrieval request produced by
`retrieve_candidates_by_qualifications`. -/
def findMatchingCandidates (serviceAvailable : Bool)
    (required_qualifications preferred_qualifications : String)
    (top_k : Int) (enable_reranking : Bool) : ToolOutcome :=
  if ¬ serviceAvailable then
    .error "LlamaCloud service is not available. Check configuration and API key."
  else if required_qualifications = "" ∨ pyStrip required_qualifications = "" then
    .error "Required qualifications cannot be empty"
  else if top_k < 1 ∨ top_k > 50 then
    .error "top_k must be an integer between 1 and 50"
  else
    let required_quals := parseQuals required_qualifications
    let preferred_quals :=
      if preferred_qualifications = "" then [] else parseQuals preferred_qualifications
    .retrieval (retrieveCandidatesConfig top_k enable_reranking)
      (buildQualificationsQuery required_quals preferred_quals)

/-- `CandidateTools.search_candidates_by_skills` (candidate_tools.py lines
101-171) up to the point where the service is contacted: after validation the
tool builds a skills `JobDescriptionData` and calls the service method
`retrieve_candidates` with `enable_reranking=True` (lines 145-149). -/
def searchCandidatesBySkills (serviceAvailable : Bool) (skills : String)
    (top_k : Int) : ToolOutcome :=
  if ¬ serviceAvailable then
    .error "LlamaCloud service is not available. Check configuration and API key."
  else if skills = "" ∨ pyStrip skills = "" then
    .error "Skills parameter cannot be empty"
  else if top_k < 1 ∨ top_k > 50 then
    .error "top_k must be an integer between 1 and 50"
  else
    let skills_list := parseQuals skills
    .retrieval (retrieveCandidatesConfig top_k true)
      (buildSearchQuery (skillsJobDescription skills skills_list))

/-- The OpenAI service object (openai_service.py lines 14-24). -/
structure OpenAIService where
  api_key : String
deriving DecidableEq

/-- `OpenAIService.__init__` (lines 17-24): raises `ValueError` when the
configured key is falsy (empty). -/
def OpenAIService.init (openai_api_key : String) : Except String OpenAIService :=
  if openai_api_key = "" then .error "OPENAI_API_KEY is required"
  else .ok { api_key := openai_api_key }

/-- `LlamaCloudService.__init__` (llamacloud_service.py lines 60-79): raises
on a missing package, a missing or placeholder API key, or a missing index
name. -/
def LlamaCloudService.init (llamaIndexAvailable : Bool)
    (api_key index_name : String) : Except String Unit :=
  if ¬ llamaIndexAvailable then
    .error "llama-index package is required for LlamaCloud functionality. Please install it with: pip install llama-index"
  else if api_key = "" ∨ api_key = "llx-your-api-key-here" then
    .error "LLAMA_CLOUD_API_KEY is required and must be set to a valid API key"
  else if index_name = "" then
    .error "LLAMA_CLOUD_INDEX_NAME is required"
  else .ok ()

/-- The CandidateTools facade state: the service slot is `None` when
construction failed. -/
structure CandidateTools where
  llamacloud_service : Option Unit
deriving DecidableEq

/-- `CandidateTools.__init__` (candidate_tools.py lines 17-24): any failure of
the service constructor is caught and the service slot is set to `None`. -/
def CandidateTools.init (llamaIndexAvailable : Bool)
    (api_key index_name : String) : CandidateTools :=
  { llamacloud_service :=
      match LlamaCloudService.init llamaIndexAvailable api_key index_name with
      | .ok s => some s
      | .error _ => none }

/-- The JobTools facade state. -/
structure JobTools where
  openai_service : OpenAIService
deriving DecidableEq

/-- `JobTools.__init__` (job_tools.py lines 16-18): the service constructor is
called without a guard, so a construction error propagates to the caller
instead of producing a facade object. -/
def JobTools.init (openai_api_key : String) : Except String JobTools :=
  (OpenAIService.init openai_api_key).map (fun s => { openai_service := s })

/-- One entry of the `requiredScores` / `preferredScores` arrays of the
model-returned scoring JSON; a missing `score` key is `none`
(`item.get("score", 0)` then reads 0). -/
structure ScoreItem where
  qualification : String
  score : Option Int
  explanation : String
deriving DecidableEq

/-- `sum(item.get("score", 0) for item in items)`. -/
def sumScores (items : List ScoreItem) : Int :=
  (items.map (fun i => i.score.getD 0)).sum

/-- The `scoringBreakdown` object (openai_service.py lines 328-333). -/
structure ScoringBreakdown where
  requiredTotal : Int
  preferredTotal : Int
  requiredCount : Nat
  preferredCount : Nat
deriving DecidableEq

/-- The scoring result dictionary (lines 321-334). -/
structure ScoringResult where
  requiredScores : List ScoreItem
  preferredScores : List ScoreItem
  totalScore : Int
  maxPossibleScore : Int
  matchPercentage : Rat
  overallFeedback : String
  scoringBreakdown : ScoringBreakdown
deriving DecidableEq

/-- Python `round(x, 1)` on the exact rational value: round to the nearest
tenth, ties to even (floats are modelled as exact rationals). -/
def round1 (x : Rat) : Rat :=
  let q := x * 10
  let f : Int := ⌊q⌋
  let r := q - (f : Rat)
  (if r < 1 / 2 then (f : Rat)
   else if 1 / 2 < r then (f : Rat) + 1
   else if f % 2 = 0 then (f : Rat) else (f : Rat) + 1) / 10

/-- The result computation of `score_candidate_qualifications`
(openai_service.py lines 304-337), as a function of the input qualification
lists and the parsed arrays of the model response. No validation or clamping
is applied to the returned scores or array lengths. -/
def scoreCandidate (required_qualifications preferred_qualifications : List String)
    (required_scores preferred_scores : List ScoreItem)
    (overallFeedback : String) : ScoringResult :=
  let required_total := sumScores required_scores
  let preferred_total := sumScores preferred_scores
  let total_score := required_total + preferred_total
  let max_possible_score : Int :=
    (required_qualifications.length + preferred_qualifications.length) * 2
  let match_percentage : Rat :=
    if max_possible_score > 0 then (total_score : Rat) / (max_possible_score : Rat) * 100
    else 0
  { requiredScores := required_scores
    preferredScores := preferred_scores
    totalScore := total_score
    maxPossibleScore := max_possible_score
    matchPercentage := round1 match_percentage
    overallFeedback := overallFeedback
    scoringBreakdown :=
      { requiredTotal := required_total
        preferredTotal := preferred_total
        requiredCount := required_qualifications.length
        preferredCount := preferred_qualifications.length } }

/-! Helper lemmas. -/

theorem dedupeSeen_eq_keepFirst (n : Nat) : ∀ l : List CandidateMatch, l.length ≤ n →
    ∀ seen : List String,
      dedupeSeen seen l =
        keepFirstOccurrences
          (l.filter (fun c => decide (c.file_name = "" ∨ c.file_name ∉ seen))) := by
  induction n with
  | zero =>
    intro l hl seen
    have : l = [] := List.length_eq_zero.mp (Nat.le_zero.mp hl)
    subst this
    simp [dedupeSeen, keepFirstOccurrences]
  | succ n ih =>
    intro l hl seen
    cases l with
    | nil => simp [dedupeSeen, keepFirstOccurrences]
    | cons c rest =>
      simp only [List.length_cons, Nat.succ_le_succ_iff] at hl
      by_cases h0 : c.file_name = ""
      · have hpred : decide (c.file_name = "" ∨ c.file_name ∉ seen) = true := by
          simp [h0]
        rw [List.filter_cons, if_pos hpred]
        rw [keepFirstOccurrences, if_pos h0]
        simp only [dedupeSeen, h0]
        rw [if_neg (by simp), ih rest hl seen]
      · by_cases h1 : c.file_name ∈ seen
        · have hpred : decide (c.file_name = "" ∨ c.file_name ∉ seen) = false := by
            simp [h0, h1]
          rw [List.filter_cons, if_neg (by simp [hpred])]
          simp only [dedupeSeen]
          rw [if_pos h0, if_pos h1, ih rest hl seen]
        · have hpred : decide (c.file_name = "" ∨ c.file_name ∉ seen) = true := by
            simp [h1]
          have hff : (rest.filter (fun d => decide (d.file_name = "" ∨ d.file_name ∉ seen))).filter
                (fun d => decide (d.file_name ≠ c.file_name)) =
              rest.filter (fun d =>
                decide (d.file_name = "" ∨ d.file_name ∉ c.file_name :: seen)) := by
            rw [List.filter_filter]
            refine List.filter_congr fun d _ => ?_
            by_cases hd : d.file_name = ""
            · have hdnc : d.file_name ≠ c.file_name := fun hcontra => h0 (hcontra ▸ hd)
              have h0s : ¬ "" = c.file_name := fun hc => h0 hc.symm
              simp [hd, hdnc, h0s]
            · by_cases hdc : d.file_name = c.file_name
              · simp [hd, hdc, h0]
              · by_cases hds : d.file_name ∈ seen
                · simp [hd, hdc, hds]
                · simp [hd, hdc, hds]
          rw [List.filter_cons, if_pos hpred]
          rw [keepFirstOccurrences, if_neg h0, hff]
          simp only [dedupeSeen]
          rw [if_pos h0, if_neg h1, ih rest hl (c.file_name :: seen)]

theorem dedupeCandidates_eq_keepFirst (l : List CandidateMatch) :
    dedupeCandidates l = keepFirstOccurrences l := by
  have h := dedupeSeen_eq_keepFirst l.length l le_rfl []
  rw [dedupeCandidates, h]
  congr 1
  have : ∀ c : CandidateMatch,
      decide (c.file_name = "" ∨ c.file_name ∉ ([] : List String)) = true := by
    intro c; simp
  rw [List.filter_congr (fun c _ => this c), List.filter_true]

theorem filter_score_orderedInsert (s : Rat) (a : CandidateMatch) :
    ∀ l : List CandidateMatch,
      (List.orderedInsert scoreGE a l).filter (fun c => decide (c.score = s)) =
        if a.score = s then a :: l.filter (fun c => decide (c.score = s))
        else l.filter (fun c => decide (c.score = s)) := by
  intro l
  induction l with
  | nil =>
    simp only [List.orderedInsert, List.filter_cons, List.filter_nil]
    split <;> simp_all
  | cons b l ih =>
    by_cases hab : scoreGE a b
    · rw [List.orderedInsert, if_pos hab]
      simp only [List.filter_cons]
      split <;> split <;> simp_all
    · rw [List.orderedInsert, if_neg hab]
      have hb : a.score < b.score := lt_of_not_le hab
      simp only [List.filter_cons, ih]
      by_cases has : a.score = s
      · have hbs : b.score ≠ s := by
          intro h; rw [← has] at h; exact absurd h (ne_of_gt hb)
        simp [has, hbs]
      · simp [has]

theorem filter_score_insertionSort (s : Rat) (l : List CandidateMatch) :
    (sortByScoreDesc l).filter (fun c => decide (c.score = s)) =
      l.filter (fun c => decide (c.score = s)) := by
  induction l with
  | nil => rfl
  | cons c l ih =>
    rw [sortByScoreDesc] at ih ⊢
    rw [List.insertionSort, filter_score_orderedInsert s c (List.insertionSort scoreGE l),
      List.filter_cons]
    by_cases h : c.score = s
    · rw [if_pos h, if_pos (by simp [h]), ih]
    · rw [if_neg h, if_neg (by simp [h]), ih]

theorem pyStrip_empty : pyStrip "" = "" := rfl

theorem findMatchingCandidates_valid (rq pq : String) (k : Int) (rr : Bool)
    (hrq : pyStrip rq ≠ "") (h1 : 1 ≤ k) (h2 : k ≤ 50) :
    findMatchingCandidates true rq pq k rr =
      ToolOutcome.retrieval (retrieveCandidatesConfig k rr)
        (buildQualificationsQuery (parseQuals rq)
          (if pq = "" then [] else parseQuals pq)) := by
  have hrq0 : rq ≠ "" := fun h => hrq (h ▸ pyStrip_empty)
  rw [findMatchingCandidates, if_neg (by simp), if_neg (by simp [hrq0, hrq]),
    if_neg (by omega)]

theorem findMatchingCandidates_topk_reject (rq pq : String) (k : Int) (rr : Bool)
    (hrq : pyStrip rq ≠ "") (hk : k < 1 ∨ k > 50) :
    findMatchingCandidates true rq pq k rr =
      ToolOutcome.error "top_k must be an integer between 1 and 50" := by
  have hrq0 : rq ≠ "" := fun h => hrq (h ▸ pyStrip_empty)
  rw [findMatchingCandidates, if_neg (by simp), if_neg (by simp [hrq0, hrq]),
    if_pos hk]

theorem searchCandidatesBySkills_valid (sk : String) (k : Int)
    (hsk : pyStrip sk ≠ "") (h1 : 1 ≤ k) (h2 : k ≤ 50) :
    searchCandidatesBySkills true sk k =
      ToolOutcome.retrieval (retrieveCandidatesConfig k true)
        (buildSearchQuery (skillsJobDescription sk (parseQuals sk))) := by
  have hsk0 : sk ≠ "" := fun h => hsk (h ▸ pyStrip_empty)
  rw [searchCandidatesBySkills, if_neg (by simp), if_neg (by simp [hsk0, hsk]),
    if_neg (by omega)]

theorem searchCandidatesBySkills_topk_reject (sk : String) (k : Int)
    (hsk : pyStrip sk ≠ "") (hk : k < 1 ∨ k > 50) :
    searchCandidatesBySkills true sk k =
      ToolOutcome.error "top_k must be an integer between 1 and 50" := by
  have hsk0 : sk ≠ "" := fun h => hsk (h ▸ pyStrip_empty)
  rw [searchCandidatesBySkills, if_neg (by simp), if_neg (by simp [hsk0, hsk]),
    if_pos hk]

theorem pyOr_empty (s : String) : pyOr s "" = s := by
  by_cases h : s = "" <;> simp [pyOr, h]

theorem char_toNat_ofNat {n : Nat} (h : n.isValidChar) : (Char.ofNat n).toNat = n := by
  unfold Char.ofNat
  rw [dif_pos h]
  rfl

theorem toLower_toUpper (c : Char) : c.toUpper.toLower = c.toLower := by
  unfold Char.toUpper Char.toLower
  by_cases h : 97 ≤ c.toNat ∧ c.toNat ≤ 122
  · rw [if_pos h]
    have hv : (c.toNat - 32).isValidChar := Or.inl (by omega)
    have ht : (Char.ofNat (c.toNat - 32)).toNat = c.toNat - 32 := char_toNat_ofNat hv
    rw [ht, if_pos (by omega), if_neg (by omega)]
    rw [show c.toNat - 32 + 32 = c.toNat by omega, Char.ofNat_toNat]
  · rw [if_neg h]

theorem toLower_toLower (c : Char) : c.toLower.toLower = c.toLower := by
  conv_lhs => rw [Char.toLower, Char.toLower]
  by_cases h : 65 ≤ c.toNat ∧ c.toNat ≤ 90
  · rw [if_pos h]
    have hv : (c.toNat + 32).isValidChar := Or.inl (by omega)
    have ht : (Char.ofNat (c.toNat + 32)).toNat = c.toNat + 32 := char_toNat_ofNat hv
    rw [ht, if_neg (by omega), Char.toLower, if_pos h]
  · rw [if_neg h, Char.toLower, if_neg h]

theorem pyLower_pyTitleAux : ∀ (b : Bool) (l : List Char),
    (pyTitleAux b l).map Char.toLower = l.map Char.toLower := by
  intro b l
  induction l generalizing b with
  | nil => rfl
  | cons c cs ih =>
    by_cases hc : c.isAlpha
    · cases b <;> simp [pyTitleAux, hc, ih, toLower_toLower, toLower_toUpper]
    · simp [pyTitleAux, hc, ih]

theorem pyLower_pyTitle (s : String) : pyLower (pyTitle s) = pyLower s := by
  show String.mk ((pyTitleAux false s.data).map Char.toLower) = String.mk (s.data.map Char.toLower)
  rw [pyLower_pyTitleAux]

theorem pyTitleAux_length : ∀ (b : Bool) (l : List Char),
    (pyTitleAux b l).length = l.length := by
  intro b l
  induction l generalizing b with
  | nil => rfl
  | cons c cs ih =>
    by_cases hc : c.isAlpha <;> simp [pyTitleAux, hc, ih]

theorem pyTitle_ne_empty {s : String} (h : s ≠ "") : pyTitle s ≠ "" := by
  intro hc
  apply h
  have hdata : pyTitleAux false s.data = [] := congrArg String.data hc
  have hlen : s.data.length = 0 := by
    rw [← pyTitleAux_length false s.data, hdata]
    rfl
  cases s with
  | mk l =>
    have : l = [] := List.length_eq_zero.mp hlen
    rw [this]

theorem matchWord_ne_nil : ∀ {l w r : List Char}, matchWord l = some (w, r) → w ≠ [] := by
  intro l w r h
  cases l with
  | nil => cases h
  | cons c cs =>
    rw [matchWord] at h
    by_cases hc : c.isUpper
    · rw [if_pos hc] at h
      by_cases he : (cs.takeWhile Char.isLower).isEmpty
      · rw [if_pos he] at h; cases h
      · rw [if_neg he] at h
        injection h with h1
        injection h1 with h2 h3
        rw [← h2]
        exact List.cons_ne_nil c _
    · rw [if_neg hc] at h; cases h

theorem matchTwoWords_ne_nil : ∀ {l w r : List Char},
    matchTwoWords l = some (w, r) → w ≠ [] := by
  intro l w r h
  rw [matchTwoWords] at h
  cases hw : matchWord l with
  | none => rw [hw] at h; cases h
  | some p =>
    rw [hw] at h
    obtain ⟨w1, r1⟩ := p
    cases r1 with
    | nil => cases h
    | cons c r2 =>
      by_cases hc : c = ' '
      · subst hc
        simp only [Option.bind_eq_bind, Option.some_bind] at h
        cases hw2 : matchWord r2 with
        | none => rw [hw2] at h; cases h
        | some p2 =>
          rw [hw2] at h
          obtain ⟨w2, r3⟩ := p2
          simp only [Option.some_bind] at h
          injection h with h1
          injection h1 with h2 h3
          rw [← h2]
          have := matchWord_ne_nil hw
          intro hcon
          exact this (List.append_eq_nil.mp hcon).1
      · exfalso
        revert h
        simp only [Option.bind_eq_bind, Option.some_bind]
        cases c with
        | mk v hv =>
          intro h
          revert h
          split
          · rename_i heq
            intro h
            exact hc (by injection heq)
          · intro h; cases h

theorem searchPattern_some {f : List Char → Option (List Char)} :
    ∀ {l w}, searchPattern f l = some w → ∃ l2, f l2 = some w := by
  intro l
  induction l with
  | nil => intro w h; exact ⟨[], h⟩
  | cons c cs ih =>
    intro w h
    rw [searchPattern] at h
    cases hf : f (c :: cs) with
    | some r =>
      rw [hf] at h
      injection h with h1
      exact ⟨c :: cs, by rw [hf, h1]⟩
    | none =>
      rw [hf] at h
      exact ih h

theorem matchNameLabelAt_ne_nil : ∀ {l w : List Char},
    matchNameLabelAt l = some w → w ≠ [] := by
  intro l w h
  simp only [matchNameLabelAt] at h
  split_ifs at h
  · obtain ⟨p, hp, hfst⟩ := Option.map_eq_some'.mp h
    obtain ⟨w0, r0⟩ := p
    rw [← hfst]
    exact matchTwoWords_ne_nil hp

theorem matchTwoWordsNewlineAt_ne_nil : ∀ {l w : List Char},
    matchTwoWordsNewlineAt l = some w → w ≠ [] := by
  intro l w h
  rw [matchTwoWordsNewlineAt] at h
  cases hw : matchTwoWords l with
  | none => rw [hw] at h; cases h
  | some p =>
    rw [hw] at h
    obtain ⟨w0, rest⟩ := p
    simp only [Option.bind_eq_bind, Option.some_bind] at h
    by_cases hn : (rest.takeWhile pyWhitespace).contains '\n'
    · rw [if_pos hn] at h
      injection h with h1
      rw [← h1]
      exact matchTwoWords_ne_nil hw
    · rw [if_neg hn] at h; cases h

theorem mk_ne_empty {w : List Char} (h : w ≠ []) : String.mk w ≠ "" := by
  intro hc
  exact h (congrArg String.data hc)

theorem inferNameFromContent_some_ne_empty {content : String} {n : String}
    (h : inferNameFromContent content = some n) : n ≠ "" := by
  rw [inferNameFromContent] at h
  cases h1 : (matchTwoWords (content.data.take 200)).map Prod.fst with
  | some w =>
    rw [h1] at h
    injection h with hn
    rw [← hn]
    obtain ⟨p, hp, hfst⟩ := Option.map_eq_some'.mp h1
    obtain ⟨w0, r0⟩ := p
    apply mk_ne_empty
    rw [← hfst]
    exact matchTwoWords_ne_nil hp
  | none =>
    rw [h1] at h
    cases h2 : searchPattern matchNameLabelAt (content.data.take 200) with
    | some w =>
      rw [h2] at h
      injection h with hn
      rw [← hn]
      obtain ⟨l2, hl2⟩ := searchPattern_some h2
      exact mk_ne_empty (matchNameLabelAt_ne_nil hl2)
    | none =>
      rw [h2] at h
      cases h3 : searchPattern matchTwoWordsNewlineAt (content.data.take 200) with
      | some w =>
        rw [h3] at h
        injection h with hn
        rw [← hn]
        obtain ⟨l2, hl2⟩ := searchPattern_some h3
        exact mk_ne_empty (matchTwoWordsNewlineAt_ne_nil hl2)
      | none => rw [h3] at h; cases h

theorem nameFromFileName_some_ne_empty {fn n : String}
    (h : nameFromFileName fn = some n) : n ≠ "" := by
  simp only [nameFromFileName] at h
  split_ifs at h with hcond
  · injection h with hn
    rw [← hn]
    exact pyTitle_ne_empty hcond.1

theorem getD_infer_ne_empty (content : String) {d : String} (hd : d ≠ "") :
    (inferNameFromContent content).getD d ≠ "" := by
  cases hi : inferNameFromContent content with
  | none => simpa using hd
  | some m =>
    simp only [Option.getD_some]
    exact inferNameFromContent_some_ne_empty hi

theorem derive_ne_empty (fn content : String) : deriveCandidateName fn content ≠ "" := by
  have hUC : ("Unknown Candidate" : String) ≠ "" := by decide
  simp only [deriveCandidateName]
  by_cases hfn : fn ≠ ""
  · rw [if_pos hfn]
    cases hf : nameFromFileName fn with
    | some n =>
      simp only [Option.getD_some]
      have hne := nameFromFileName_some_ne_empty hf
      split_ifs with hcond
      · exact getD_infer_ne_empty content hne
      · exact hne
    | none =>
      simp only [Option.getD_none]
      split_ifs with hcond
      · exact getD_infer_ne_empty content hUC
      · exact hUC
  · rw [if_neg hfn]
    simp only [Option.getD_none]
    split_ifs with hcond
    · exact getD_infer_ne_empty content hUC
    · exact hUC

theorem mem_infix_pyJoin (sep : String) :
    ∀ (l : List String) (s : String), s ∈ l → s.data <:+: (pyJoin sep l).data := by
  intro l
  induction l with
  | nil => intro s hs; cases hs
  | cons x rest ih =>
    intro s hs
    cases rest with
    | nil =>
      rw [List.mem_singleton] at hs
      subst hs
      exact List.infix_rfl
    | cons y t =>
      rw [show pyJoin sep (x :: y :: t) = x ++ sep ++ pyJoin sep (y :: t) from rfl]
      rcases List.mem_cons.mp hs with rfl | hmem
      · simp only [String.data_append, List.append_assoc]
        exact (List.prefix_append s.data _).isInfix
      · have h2 := ih s hmem
        refine h2.trans ?_
        simp only [String.data_append]
        exact (List.suffix_append (x.data ++ sep.data) _).isInfix

/-! Claim theorems. -/

/-- Claim C1: the deduplicate-and-rank step of a retrieval call keeps exactly
the first occurrence (in input order) of each distinct non-empty file name and
every record with an empty file name, and returns the survivors sorted by
score non-increasing as a stable permutation: the sublist of records carrying
any fixed score is unchanged. -/
theorem retrieve_dedupe_rank_spec (l : List CandidateMatch) :
    dedupeCandidates l = keepFirstOccurrences l ∧
    List.Sorted scoreGE (processCandidates l) ∧
    List.Perm (processCandidates l) (dedupeCandidates l) ∧
    ∀ s : Rat, (processCandidates l).filter (fun c => decide (c.score = s)) =
      (dedupeCandidates l).filter (fun c => decide (c.score = s)) := by
  refine ⟨dedupeCandidates_eq_keepFirst l, ?_, ?_, ?_⟩
  · exact List.sorted_insertionSort scoreGE (dedupeCandidates l)
  · exact List.perm_insertionSort scoreGE (dedupeCandidates l)
  · intro s
    exact filter_score_insertionSort s (dedupeCandidates l)

/-- Claim C2 counterexample: on a valid input the skills tool issues its
retrieval through `retrieve_candidates` with the re-ranking flag set to
`True`, so the retriever is configured with re-ranking enabled, not
disabled. -/
theorem searchCandidatesBySkills_reranking_counterexample :
    searchCandidatesBySkills true "Python" 10 =
      ToolOutcome.retrieval (retrieveCandidatesConfig 10 true)
        (buildSearchQuery (skillsJobDescription "Python" ["Python"])) ∧
    (retrieveCandidatesConfig 10 true).enable_reranking = true := by
  exact ⟨rfl, rfl⟩

/-- Claim C2 (amended): the service method `search_by_skills` does configure
its retriever with re-ranking disabled, but the tool
`search_candidates_by_skills` never calls it: for every valid skills input and
top_k the tool performs its retrieval via `retrieve_candidates` with
`enable_reranking=True`, so the retriever is configured with re-ranking
enabled. -/
theorem searchCandidatesBySkills_reranking_enabled (skills : String) (top_k : Int)
    (hs : pyStrip skills ≠ "") (h1 : 1 ≤ top_k) (h2 : top_k ≤ 50) :
    (∀ k : Int, (searchBySkillsConfig k).enable_reranking = false) ∧
    searchCandidatesBySkills true skills top_k =
      ToolOutcome.retrieval (retrieveCandidatesConfig top_k true)
        (buildSearchQuery (skillsJobDescription skills (parseQuals skills))) ∧
    (retrieveCandidatesConfig top_k true).enable_reranking = true := by
  exact ⟨fun _ => rfl, searchCandidatesBySkills_valid skills top_k hs h1 h2, rfl⟩

/-- Closed witness for the amended C2 theorem at a concrete valid input. -/
theorem searchCandidatesBySkills_reranking_enabled_witness :
    (∀ k : Int, (searchBySkillsConfig k).enable_reranking = false) ∧
    searchCandidatesBySkills true "Java" 5 =
      ToolOutcome.retrieval (retrieveCandidatesConfig 5 true)
        (buildSearchQuery (skillsJobDescription "Java" (parseQuals "Java"))) ∧
    (retrieveCandidatesConfig 5 true).enable_reranking = true :=
  searchCandidatesBySkills_reranking_enabled "Java" 5 (by decide) (by decide) (by decide)

/-- Claim C3 counterexample: when the OpenAI API key is missing, the
`JobTools` facade constructor yields the propagated `ValueError` instead of a
facade object: the construction error is not caught. -/
theorem jobTools_init_propagates_counterexample :
    JobTools.init "" = Except.error "OPENAI_API_KEY is required" := rfl

/-- Claim C3 (amended): the `CandidateTools` facade catches the configuration
error raised by its backing service constructor, stores no service, and
thereafter returns the service-not-available error envelope on each candidate
tool call; the `JobTools` facade has no such guard, so the configuration error
of its backing service propagates out of the constructor. -/
theorem toolFacade_config_error_behavior (avail : Bool) (key idx e : String)
    (h : LlamaCloudService.init avail key idx = Except.error e) :
    (CandidateTools.init avail key idx).llamacloud_service = none ∧
    (∀ rq pq : String, ∀ k : Int, ∀ rr : Bool,
      findMatchingCandidates
          (CandidateTools.init avail key idx).llamacloud_service.isSome rq pq k rr =
        ToolOutcome.error
          "LlamaCloud service is not available. Check configuration and API key.") ∧
    (∀ sk : String, ∀ k : Int,
      searchCandidatesBySkills
          (CandidateTools.init avail key idx).llamacloud_service.isSome sk k =
        ToolOutcome.error
          "LlamaCloud service is not available. Check configuration and API key.") ∧
    JobTools.init "" = Except.error "OPENAI_API_KEY is required" := by
  have hnone : (CandidateTools.init avail key idx).llamacloud_service = none := by
    simp [CandidateTools.init, h]
  have hfalse : (CandidateTools.init avail key idx).llamacloud_service.isSome = false := by
    rw [hnone]; rfl
  refine ⟨hnone, ?_, ?_, rfl⟩
  · intro rq pq k rr
    rw [hfalse, findMatchingCandidates, if_pos (by simp)]
  · intro sk k
    rw [hfalse, searchCandidatesBySkills, if_pos (by simp)]

/-- Closed witness for the amended C3 theorem: missing LlamaCloud key. -/
theorem toolFacade_config_error_behavior_witness :
    (CandidateTools.init true "" "resume_public").llamacloud_service = none ∧
    findMatchingCandidates
        (CandidateTools.init true "" "resume_public").llamacloud_service.isSome
        "Python" "" 10 true =
      ToolOutcome.error
        "LlamaCloud service is not available. Check configuration and API key." :=
  ⟨(toolFacade_config_error_behavior true "" "resume_public"
      "LLAMA_CLOUD_API_KEY is required and must be set to a valid API key" rfl).1,
   (toolFacade_config_error_behavior true "" "resume_public"
      "LLAMA_CLOUD_API_KEY is required and must be set to a valid API key" rfl).2.1
      "Python" "" 10 true⟩

/-- Claim C7: for the candidate-search tools with otherwise valid inputs,
top_k values 0 and 51 are rejected by validation with an error envelope (no
retrieval is issued, so no external service is contacted), while 1 and 50 pass
the top_k validation and reach the retrieval. -/
theorem top_k_validation_boundaries (rq pq sk : String) (rr : Bool)
    (hrq : pyStrip rq ≠ "") (hsk : pyStrip sk ≠ "") :
    findMatchingCandidates true rq pq 0 rr =
      ToolOutcome.error "top_k must be an integer between 1 and 50" ∧
    findMatchingCandidates true rq pq 51 rr =
      ToolOutcome.error "top_k must be an integer between 1 and 50" ∧
    searchCandidatesBySkills true sk 0 =
      ToolOutcome.error "top_k must be an integer between 1 and 50" ∧
    searchCandidatesBySkills true sk 51 =
      ToolOutcome.error "top_k must be an integer between 1 and 50" ∧
    (∀ k : Int, k = 1 ∨ k = 50 →
      findMatchingCandidates true rq pq k rr =
        ToolOutcome.retrieval (retrieveCandidatesConfig k rr)
          (buildQualificationsQuery (parseQuals rq)
            (if pq = "" then [] else parseQuals pq)) ∧
      searchCandidatesBySkills true sk k =
        ToolOutcome.retrieval (retrieveCandidatesConfig k true)
          (buildSearchQuery (skillsJobDescription sk (parseQuals sk)))) := by
  refine ⟨findMatchingCandidates_topk_reject rq pq 0 rr hrq (by omega),
    findMatchingCandidates_topk_reject rq pq 51 rr hrq (by omega),
    searchCandidatesBySkills_topk_reject sk 0 hsk (by omega),
    searchCandidatesBySkills_topk_reject sk 51 hsk (by omega), ?_⟩
  intro k hk
  have h1 : 1 ≤ k := by omega
  have h2 : k ≤ 50 := by omega
  exact ⟨findMatchingCandidates_valid rq pq k rr hrq h1 h2,
    searchCandidatesBySkills_valid sk k hsk h1 h2⟩

/-- Closed witness for the C7 theorem at concrete valid text inputs. -/
theorem top_k_validation_boundaries_witness :
    findMatchingCandidates true "Python, SQL" "AWS" 0 true =
      ToolOutcome.error "top_k must be an integer between 1 and 50" ∧
    searchCandidatesBySkills true "Python" 51 =
      ToolOutcome.error "top_k must be an integer between 1 and 50" ∧
    findMatchingCandidates true "Python, SQL" "AWS" 1 true =
      ToolOutcome.retrieval (retrieveCandidatesConfig 1 true)
        (buildQualificationsQuery (parseQuals "Python, SQL")
          (if ("AWS" : String) = "" then [] else parseQuals "AWS")) :=
  ⟨(top_k_validation_boundaries "Python, SQL" "AWS" "Python" true
      (by decide) (by decide)).1,
   (top_k_validation_boundaries "Python, SQL" "AWS" "Python" true
      (by decide) (by decide)).2.2.2.1,
   ((top_k_validation_boundaries "Python, SQL" "AWS" "Python" true
      (by decide) (by decide)).2.2.2.2 1 (Or.inl rfl)).1⟩

/-- Claim C4: the candidate normalizer is total: on the success of the
extraction body it returns exactly the extracted match, and on an internal
extraction error it returns the best-effort fallback whose unresolved fields
are at their defaults: candidate_name the sentinel, file_name empty, and score
0.0 when the record carries no score. -/
theorem extract_candidate_info_total (node : RawNode) :
    (∀ c, extractCandidateInfoE node = Except.ok c → extractCandidateInfo node = c) ∧
    (∀ e, extractCandidateInfoE node = Except.error e →
      (extractCandidateInfo node).candidate_name = "Unknown Candidate" ∧
      (extractCandidateInfo node).file_name = "" ∧
      (extractCandidateInfo node).score = node.score.getD 0 ∧
      (node.score = none → (extractCandidateInfo node).score = 0)) := by
  constructor
  · intro c hc
    simp [extractCandidateInfo, hc]
  · intro e he
    refine ⟨?_, ?_, ?_, ?_⟩ <;>
      simp [extractCandidateInfo, he, mkCandidateMatch, pyOr]
    intro h
    rw [h]
    rfl

/-- Closed witness for the C4 theorem: a record whose metadata attribute is
not a mapping takes the error path and yields the default fields. -/
theorem extract_candidate_info_total_witness :
    (extractCandidateInfo
      { id_ := none, node_id := none, score := none, text := none, content := none,
        metadata := some (.nonDict "oops"), extra_info := none,
        node := none }).candidate_name = "Unknown Candidate" ∧
    (extractCandidateInfo
      { id_ := none, node_id := none, score := none, text := none, content := none,
        metadata := some (.nonDict "oops"), extra_info := none,
        node := none }).file_name = "" ∧
    (extractCandidateInfo
      { id_ := none, node_id := none, score := none, text := none, content := none,
        metadata := some (.nonDict "oops"), extra_info := none,
        node := none }).score = 0 :=
  have h := (extract_candidate_info_total
    { id_ := none, node_id := none, score := none, text := none, content := none,
      metadata := some (.nonDict "oops"), extra_info := none, node := none }).2
    "AttributeError: metadata value does not support get" rfl
  ⟨h.1, h.2.1, h.2.2.2 rfl⟩

/-- Claim C5: a non-empty file name yields the candidate name by stripping the
path and extension, replacing underscores and hyphens with spaces and
title-casing, accepted unless the result is empty or starts with "resume"
case-insensitively; on a flat record the extractor uses exactly this
derivation, "maria_garcia.pdf" gives "Maria Garcia", "resume_final.pdf" falls
through to content inference, and the inference only sees the first 200
characters of the content. -/
theorem candidate_name_from_file_name_spec (fn content id : String) (score : Rat) :
    (∀ n, nameFromFileName fn = some n →
      n = pyTitle (namePartOf fn) ∧ n ≠ "" ∧
      ("resume" : String).data.isPrefixOf (pyLower n).data = false) ∧
    (nameFromFileName fn = none ↔
      (namePartOf fn = "" ∨
        ("resume" : String).data.isPrefixOf (pyLower (namePartOf fn)).data = true)) ∧
    ((extractCandidateInfo (flatNode id score content [("file_name", fn)])).candidate_name =
      deriveCandidateName fn content) ∧
    deriveCandidateName "maria_garcia.pdf" content = "Maria Garcia" ∧
    (content ≠ "" → deriveCandidateName "resume_final.pdf" content =
      (inferNameFromContent content).getD "Unknown Candidate") ∧
    inferNameFromContent content = inferNameFromContent ⟨content.data.take 200⟩ := by
  refine ⟨?_, ?_, ?_, ?_, ?_, ?_⟩
  · intro n hn
    simp only [nameFromFileName] at hn
    split_ifs at hn with hcond
    injection hn with hn
    subst hn
    refine ⟨rfl, pyTitle_ne_empty hcond.1, ?_⟩
    rw [pyLower_pyTitle]
    exact Bool.eq_false_iff.mpr hcond.2
  · simp only [nameFromFileName]
    split_ifs with hcond
    · constructor
      · intro hc
        cases hc
      · rintro (hc | hc)
        · exact absurd hc hcond.1
        · exact absurd hc hcond.2
    · push_neg at hcond
      constructor
      · intro _
        by_cases hnp : namePartOf fn = ""
        · exact Or.inl hnp
        · exact Or.inr (hcond hnp)
      · intro _
        rfl
  · have hname := derive_ne_empty fn content
    have hpor : pyOr (deriveCandidateName fn content) "Unknown Candidate" =
        deriveCandidateName fn content := by
      rw [pyOr, if_neg hname]
    simp [extractCandidateInfo, extractCandidateInfoE, flatNode, fileNameFrom, lookupMeta,
      pyOrMeta, MetaVal.truthy, pyOr_empty, mkCandidateMatch, hpor]
  · have hm : nameFromFileName "maria_garcia.pdf" = some "Maria Garcia" := by decide
    simp [deriveCandidateName, hm]
  · intro hcontent
    have hr : nameFromFileName "resume_final.pdf" = none := by decide
    simp [deriveCandidateName, hr, hcontent]
  · simp [inferNameFromContent, List.take_take]

/-- Closed witness for the C5 theorem at the two concrete file names of the
claim. -/
theorem candidate_name_from_file_name_spec_witness :
    ("Maria Garcia" : String) = pyTitle (namePartOf "maria_garcia.pdf") ∧
    deriveCandidateName "maria_garcia.pdf" "irrelevant" = "Maria Garcia" ∧
    deriveCandidateName "resume_final.pdf" "John Doe\nresume text" =
      (inferNameFromContent "John Doe\nresume text").getD "Unknown Candidate" :=
  ⟨((candidate_name_from_file_name_spec "maria_garcia.pdf" "irrelevant" "id" 1).1
      "Maria Garcia" (by decide)).1,
   (candidate_name_from_file_name_spec "maria_garcia.pdf" "irrelevant" "id" 1).2.2.2.1,
   (candidate_name_from_file_name_spec "resume_final.pdf" "John Doe\nresume text" "id" 1).2.2.2.2.1
     (by decide)⟩

/-- Claim C6: the qualifications query contains every input qualification
string as a substring, and each of the three clauses is present in the built
parts exactly when its source list (the union, for the combined clause) is
non-empty: the clause markers never occur at the head of another part. -/
theorem build_qualifications_query_spec (req pref : List String) :
    (∀ q ∈ req ++ pref, q.data <:+: (buildQualificationsQuery req pref).data) ∧
    (req ≠ [] →
      ("Required skills and qualifications: " ++ pyJoin ", " req) ∈
        qualificationsQueryParts req pref) ∧
    (req = [] → ∀ p ∈ qualificationsQueryParts req pref,
      ("Required skills and qualifications:" : String).data.isPrefixOf p.data = false) ∧
    (pref ≠ [] →
      ("Preferred skills and experience: " ++ pyJoin ", " pref) ∈
        qualificationsQueryParts req pref) ∧
    (pref = [] → ∀ p ∈ qualificationsQueryParts req pref,
      ("Preferred skills and experience:" : String).data.isPrefixOf p.data = false) ∧
    (req ++ pref ≠ [] →
      ("Relevant experience with: " ++ pyJoin ", " (req ++ pref)) ∈
        qualificationsQueryParts req pref) ∧
    (req ++ pref = [] → qualificationsQueryParts req pref = []) := by
  refine ⟨?_, ?_, ?_, ?_, ?_, ?_, ?_⟩
  · intro q hq
    have hne : req ++ pref ≠ [] := by
      intro h; rw [h] at hq; cases hq
    have hcomb : ("Relevant experience with: " ++ pyJoin ", " (req ++ pref)) ∈
        qualificationsQueryParts req pref := by
      simp [qualificationsQueryParts, hne]
    have h1 : q.data <:+: (pyJoin ", " (req ++ pref)).data :=
      mem_infix_pyJoin ", " (req ++ pref) q hq
    have h2 : (pyJoin ", " (req ++ pref)).data <:+:
        ("Relevant experience with: " ++ pyJoin ", " (req ++ pref)).data := by
      simp only [String.data_append]
      exact (List.suffix_append _ _).isInfix
    have h3 := mem_infix_pyJoin " " (qualificationsQueryParts req pref) _ hcomb
    rw [buildQualificationsQuery]
    exact (h1.trans h2).trans h3
  · intro hreq
    simp [qualificationsQueryParts, hreq]
  · intro hreq p hp
    subst hreq
    by_cases hpref : pref = []
    · subst hpref
      simp [qualificationsQueryParts] at hp
    · simp [qualificationsQueryParts, hpref] at hp
      rcases hp with rfl | rfl
      · simp only [String.data_append]
        rfl
      · simp only [String.data_append]
        rfl
  · intro hpref
    simp [qualificationsQueryParts, hpref]
  · intro hpref p hp
    subst hpref
    by_cases hreq : req = []
    · subst hreq
      simp [qualificationsQueryParts] at hp
    · simp [qualificationsQueryParts, hreq] at hp
      rcases hp with rfl | rfl
      · simp only [String.data_append]
        rfl
      · simp only [String.data_append]
        rfl
  · intro hne
    simp [qualificationsQueryParts, hne]
  · intro h
    have hreq : req = [] := by
      cases req with
      | nil => rfl
      | cons a t => cases h
    have hpref : pref = [] := by
      rw [hreq] at h
      simpa using h
    subst hreq; subst hpref
    rfl

/-- Closed witness for the C6 theorem at concrete qualification lists. -/
theorem build_qualifications_query_spec_witness :
    ("Python" : String).data <:+: (buildQualificationsQuery ["Python"] ["AWS"]).data ∧
    ("Required skills and qualifications: " ++ pyJoin ", " ["Python"]) ∈
      qualificationsQueryParts ["Python"] ["AWS"] :=
  ⟨(build_qualifications_query_spec ["Python"] ["AWS"]).1 "Python" (by simp),
   (build_qualifications_query_spec ["Python"] ["AWS"]).2.1 (by simp)⟩

/-- Claim C8: in every scoring result, maxPossibleScore is twice the number of
input qualifications, totalScore is the sum of the model-returned score
fields of both arrays, and matchPercentage is 100*totalScore/maxPossibleScore
rounded to one decimal (0 when maxPossibleScore is 0); with 2 required and 1
preferred qualification all scored 2 the result is 6, 6, 100.0. -/
theorem score_candidate_arithmetic (rq pq : List String)
    (rs ps : List ScoreItem) (fb : String) :
    (scoreCandidate rq pq rs ps fb).maxPossibleScore = 2 * (rq.length + pq.length) ∧
    (scoreCandidate rq pq rs ps fb).totalScore = sumScores rs + sumScores ps ∧
    (scoreCandidate rq pq rs ps fb).matchPercentage =
      (if (scoreCandidate rq pq rs ps fb).maxPossibleScore = 0 then 0
       else round1 (100 * ((sumScores rs + sumScores ps : Int) : Rat) /
         ((2 * (rq.length + pq.length) : Nat) : Rat))) ∧
    ((scoreCandidate ["a", "b"] ["c"]
        [{ qualification := "a", score := some 2, explanation := "" },
         { qualification := "b", score := some 2, explanation := "" }]
        [{ qualification := "c", score := some 2, explanation := "" }] "").totalScore,
     (scoreCandidate ["a", "b"] ["c"]
        [{ qualification := "a", score := some 2, explanation := "" },
         { qualification := "b", score := some 2, explanation := "" }]
        [{ qualification := "c", score := some 2, explanation := "" }] "").maxPossibleScore,
     (scoreCandidate ["a", "b"] ["c"]
        [{ qualification := "a", score := some 2, explanation := "" },
         { qualification := "b", score := some 2, explanation := "" }]
        [{ qualification := "c", score := some 2, explanation := "" }] "").matchPercentage) =
      (6, 6, 100) := by
  refine ⟨by simp [scoreCandidate]; ring, rfl, ?_,
    by norm_num [scoreCandidate, sumScores, round1]⟩
  by_cases hm : ((rq.length + pq.length : Nat) : Int) * 2 = 0
  · have hz : (scoreCandidate rq pq rs ps fb).maxPossibleScore = 0 := hm
    rw [if_pos hz]
    simp only [scoreCandidate]
    rw [if_neg (by omega)]
    norm_num [round1]
  · have hmp : (scoreCandidate rq pq rs ps fb).maxPossibleScore ≠ 0 := hm
    rw [if_neg hmp]
    simp only [scoreCandidate]
    rw [if_pos (by omega)]
    congr 1
    push_cast
    ring

/-- Claim C9: every constructed CandidateMatch has a non-empty candidate name
(the constructor substitutes the sentinel for a missing or empty name and the
empty string for a missing file name), so every serialized candidate
dictionary carries a non-empty candidate_name field. -/
theorem candidateMatch_constructor_invariant (node_id : String) (score : Rat)
    (content : String) (metadata : MetaVal) (cn fn : Option String) :
    (mkCandidateMatch node_id score content metadata cn fn).candidate_name ≠ "" ∧
    ((cn = none ∨ cn = some "") →
      (mkCandidateMatch node_id score content metadata cn fn).candidate_name =
        "Unknown Candidate") ∧
    (∀ s, cn = some s → s ≠ "" →
      (mkCandidateMatch node_id score content metadata cn fn).candidate_name = s) ∧
    ((fn = none ∨ fn = some "") →
      (mkCandidateMatch node_id score content metadata cn fn).file_name = "") ∧
    (∀ s, fn = some s →
      (mkCandidateMatch node_id score content metadata cn fn).file_name = s) ∧
    (mkCandidateMatch node_id score content metadata cn fn).toDict.lookup
        "candidate_name" =
      some (.str (mkCandidateMatch node_id score content metadata cn fn).candidate_name) := by
  refine ⟨?_, ?_, ?_, ?_, ?_, rfl⟩
  · cases cn with
    | none => simp [mkCandidateMatch, pyOr]
    | some s =>
      by_cases hs : s = "" <;> simp [mkCandidateMatch, pyOr, hs]
  · rintro (rfl | rfl) <;> simp [mkCandidateMatch, pyOr]
  · rintro s rfl hs
    simp [mkCandidateMatch, pyOr, hs]
  · rintro (rfl | rfl) <;> simp [mkCandidateMatch, pyOr]
  · rintro s rfl
    by_cases hs : s = "" <;> simp [mkCandidateMatch, pyOr, hs]

/-- Closed witness for the C9 theorem at concrete constructor inputs. -/
theorem candidateMatch_constructor_invariant_witness :
    (mkCandidateMatch "n1" 1 "text" (.dict []) none (some "")).candidate_name =
      "Unknown Candidate" ∧
    (mkCandidateMatch "n1" 1 "text" (.dict []) none (some "")).file_name = "" ∧
    (mkCandidateMatch "n1" 1 "text" (.dict []) (some "Jane Roe")
        (some "jane.pdf")).candidate_name = "Jane Roe" :=
  ⟨(candidateMatch_constructor_invariant "n1" 1 "text" (.dict []) none
      (some "")).2.1 (Or.inl rfl),
   (candidateMatch_constructor_invariant "n1" 1 "text" (.dict []) none
      (some "")).2.2.2.1 (Or.inr rfl),
   (candidateMatch_constructor_invariant "n1" 1 "text" (.dict [])
      (some "Jane Roe") (some "jane.pdf")).2.2.1 "Jane Roe" rfl (by decide)⟩

/-- Claim C10: the scoring computation applies no validation or clamping to
the model-returned scores: a well-formed response scoring a single required
qualification with 7 yields totalScore 7 above maxPossibleScore 2 and a
matchPercentage of 350, above 100. -/
theorem scoring_unclamped_exceeds_max :
    (scoreCandidate ["Python"] []
        [{ qualification := "Python", score := some 7, explanation := "overstated" }]
        [] "").totalScore >
      (scoreCandidate ["Python"] []
        [{ qualification := "Python", score := some 7, explanation := "overstated" }]
        [] "").maxPossibleScore ∧
    (scoreCandidate ["Python"] []
        [{ qualification := "Python", score := some 7, explanation := "overstated" }]
        [] "").matchPercentage > 100 := by
  refine ⟨by norm_num [scoreCandidate, sumScores], ?_⟩
  norm_num [scoreCandidate, sumScores, round1]

end ResumeScreening
